import Mathlib

/-!
# Verification of the BookGuide CLI chat client (`src/index.py`)

A shallow embedding of the conversation-state management and persistence
logic of the BookGuide command-line chat client, together with proofs of
the specified properties.

Modelling decisions:

* A Python value appearing in an exchange log is either a plain `dict`
  (modelled as an association list of string keys to string values, since
  the program only ever stores string-valued fields) or an opaque
  role-bearing object from the remote API, characterised by whether it has
  a `role` attribute and by its text representation (`str(message)`).
* The on-disk transcript file is modelled by `FileState`: missing,
  present-but-malformed JSON, or a well-formed JSON document holding a
  mapping from session ids to transcript records.  The mapping is an
  association list, matching the insertion-ordered Python `dict`.
* Python exceptions are modelled with `Except String`: a function that can
  raise returns `Except.error msg`.
* The remote model boundary (`start_chat` / `send_message`) is an opaque
  oracle `Remote`; on success the chat session's history is the seeded
  history followed by the new user turn and the model reply, which is the
  contract of the chat API the code relies on.
* Python's `str.lower()` is modelled per character with `Char.toLower`
  (the program's keyword table is pure ASCII), and `key in s` is substring
  containment on the character sequence.
-/

namespace BookGuide

/-- One canonical exchange record as written to disk: the `{role, parts}`
shape produced by `save_conversation`'s normalization. -/
structure SavedMessage where
  role : String
  parts : String
deriving DecidableEq, Repr

/-- A value stored in an in-memory exchange log.  `dict` is a plain Python
dictionary with string keys and values; `content` is an opaque Content
object from the remote API, characterised by whether it has a `role`
attribute (`hasRoleAttr`) and by its text representation `text`
(what `str(message)` returns). -/
inductive Message where
  | dict (entries : List (String × String))
  | content (hasRoleAttr : Bool) (text : String)
deriving DecidableEq, Repr

/-- Python dictionary key lookup on an association list (first matching
key wins; Python dicts have unique keys, so this is exact). -/
def dictGet (key : String) : List (String × String) → Option String
  | [] => none
  | (k, v) :: rest => if k = key then some v else dictGet key rest

/-- One saved transcript record: `{timestamp, history}`. -/
structure TranscriptRecord where
  timestamp : String
  history : List SavedMessage
deriving DecidableEq, Repr

/-- The transcript store: a mapping from session id to transcript record,
as an insertion-ordered association list (a Python `dict`). -/
abbrev Store := List (String × TranscriptRecord)

/-- Store lookup (Python `conversations[session_id]` read side /
`session_id in conversations`). -/
def lookupSession (sid : String) : Store → Option TranscriptRecord
  | [] => none
  | (k, v) :: rest => if k = sid then some v else lookupSession sid rest

/-- Python `conversations[session_id] = rec`: replace the value at an
existing key in place, or append a new binding at the end. -/
def setSession (sid : String) (rec : TranscriptRecord) : Store → Store
  | [] => [(sid, rec)]
  | (k, v) :: rest =>
      if k = sid then (sid, rec) :: rest else (k, v) :: setSession sid rec rest

/-- The number of entries a session id occupies in the store (a Python
dict always has exactly one slot per present key, so a well-formed store
has at most one). -/
def countSession (sid : String) (s : Store) : Nat :=
  (s.filter fun p => p.1 = sid).length

/-- The state of the `conversation_history.json` file on disk. -/
inductive FileState where
  | missing
  | invalid
  | valid (store : Store)
deriving DecidableEq, Repr

/-- `load_conversation_history`: read the JSON document; a missing file
(`FileNotFoundError`) or malformed contents (`json.JSONDecodeError`) are
caught and yield the empty mapping.  The function is total: it never
raises. -/
def load_conversation_history : FileState → Store
  | .missing => []
  | .invalid => []
  | .valid store => store

/-- Substring containment on character lists: `pat` occurs contiguously
inside the list.  Mirrors Python's `pat in hay` on strings. -/
def charsContain (pat : List Char) : List Char → Bool
  | [] => pat.isEmpty
  | c :: rest => pat.isPrefixOf (c :: rest) || charsContain pat rest

/-- Python `pat in hay` for strings. -/
def strContains (hay pat : String) : Bool :=
  charsContain pat.toList hay.toList

/-- Python `s.lower()` as a character list (ASCII case folding; the
keyword table is pure ASCII). -/
def lowerChars (s : String) : List Char :=
  s.toList.map Char.toLower

/-- The fixed keyword table of `classify_topic`, in declaration order
(Python dict iteration order is insertion order). -/
def keyword_table : List (String × String) :=
  [("recommend", "recommendations"),
   ("suggest", "recommendations"),
   ("author", "author_info"),
   ("write", "author_info"),
   ("genre", "genre_exploration"),
   ("type", "genre_exploration"),
   ("understand", "comprehension"),
   ("meaning", "comprehension"),
   ("library", "resources"),
   ("find", "resources")]

/-- The per-keyword test of `classify_topic`'s loop: `key in user_input`
on the lowered input. -/
def keywordMatches (lowered : List Char) (kt : String × String) : Bool :=
  charsContain kt.1.toList lowered

/-- `classify_topic`: lowercase the input, scan the keyword table in
declaration order, return the topic of the first keyword occurring as a
substring; `general` if none does. -/
def classify_topic (user_input : String) : String :=
  let lowered := lowerChars user_input
  match keyword_table.find? (keywordMatches lowered) with
  | some kt => kt.2
  | none => "general"

/-- Normalize one exchange to the serializable `{role, parts}` shape
(the body of `save_conversation`'s loop).  A plain dict is read via
`message['role']` and `message['parts']` — a missing key raises
`KeyError` (modelled as `Except.error`).  Any non-dict value is coerced:
role is `model` when the object has a `role` attribute, else `user`,
and parts is `str(message)`. -/
def normalizeMessage : Message → Except String SavedMessage
  | .dict entries =>
      match dictGet "role" entries with
      | none => .error "KeyError: role"
      | some role =>
          match dictGet "parts" entries with
          | none => .error "KeyError: parts"
          | some parts => .ok ⟨role, parts⟩
  | .content hasRoleAttr text =>
      .ok ⟨if hasRoleAttr then "model" else "user", text⟩

/-- The normalization loop of `save_conversation`: normalize each exchange
in order, building the serializable history; the first `KeyError`
propagates. -/
def normalizeHistory : List Message → Except String (List SavedMessage)
  | [] => .ok []
  | m :: rest =>
      match normalizeMessage m with
      | .error e => .error e
      | .ok s =>
          match normalizeHistory rest with
          | .error e => .error e
          | .ok ss => .ok (s :: ss)

/-- `save_conversation session_id history` at wall-clock time `now`, acting
on the transcript file `fs`: load the current mapping, normalize every
exchange in order, bind the session id to `{timestamp: now, history:
normalized}`, and overwrite the file with the whole mapping.  A `KeyError`
during normalization propagates (`Except.error`). -/
def save_conversation (session_id : String) (history : List Message)
    (now : String) (fs : FileState) : Except String FileState :=
  let conversations := load_conversation_history fs
  match normalizeHistory history with
  | .error e => .error e
  | .ok serializable_history =>
      .ok (.valid (setSession session_id
        ⟨now, serializable_history⟩ conversations))

/-- One step of `summarize_conversation`'s comprehension
`[msg['parts'] for msg in history if msg['role'] == 'user']`: subscripting
a non-dict raises `TypeError`; a dict without a `role` key raises
`KeyError`; when the role is `user`, `msg['parts']` is read (raising
`KeyError` when absent); otherwise the message contributes nothing. -/
def extractQuestion : Message → Except String (Option String)
  | .content _ _ => .error "TypeError: not subscriptable"
  | .dict entries =>
      match dictGet "role" entries with
      | none => .error "KeyError: role"
      | some role =>
          if role = "user" then
            match dictGet "parts" entries with
            | none => .error "KeyError: parts"
            | some parts => .ok (some parts)
          else .ok none

/-- The comprehension of `summarize_conversation`: the parts of the
user-role messages, in order, with the first raised error propagating. -/
def collectQuestions : List Message → Except String (List String)
  | [] => .ok []
  | m :: rest =>
      match extractQuestion m with
      | .error e => .error e
      | .ok o =>
          match collectQuestions rest with
          | .error e => .error e
          | .ok qs => .ok (o.elim qs (· :: qs))

/-- `summarize_conversation`: collect the parts of user-role messages,
drop the first (the synthetic system prompt), keep at most three, join
with a comma and a space after the fixed prefix, and append an ellipsis. -/
def summarize_conversation (history : List Message) : Except String String :=
  match collectQuestions history with
  | .error e => .error e
  | .ok questionsAll =>
      let questions := questionsAll.drop 1
      .ok ("Discussion covered: " ++
           String.intercalate ", " (questions.take 3) ++ "...")

/-- The fixed persona instructions returned by `create_system_instructions`. -/
def create_system_instructions : String :=
  "You are BookGuide, an expert literary advisor. You provide helpful guidance about:\n    - Book recommendations based on interests and reading level\n    - Author backgrounds and writing styles\n    - Genre exploration and literary analysis\n    - Reading tips and comprehension strategies\n    - Library resources and book-finding help\n    \n    Always strive to:\n    - Provide specific, actionable recommendations\n    - Include brief context about suggested books/authors\n    - Respect reading levels and content sensitivities\n    - Encourage a love of reading and literary exploration\n    \n    If unsure about a recommendation or detail,\n    acknowledge uncertainty and suggest consulting a librarian\n    or verified book database.\n    \n    Keep responses engaging, informative, and focused on fostering \n    a positive reading experience.\n    \n    Do not diverge from the topic of books or reading."

/-- The fixed model acknowledgment in the seed. -/
def acknowledgment : String :=
  "I understand my role as BookGuide. How can I help with your questions about books or reading?"

/-- The answer text of the second few-shot example exchange. -/
def few_shot_answer : String :=
  "Here are two excellent mystery recommendations:\n\n1. 'The Thursday Murder Club' by Richard Osman\n- A charming yet clever mystery featuring four retirees who solve cold cases\n- Perfect for readers who enjoy wit mixed with their mysteries\n- Suitable for adult readers, especially those who appreciate British humor\n\n2. 'The 7½ Deaths of Evelyn Hardcastle' by Stuart Turton\n- An innovative mystery with a time-loop twist\n- Ideal for readers who enjoy complex plots and unique storytelling\n- Best for experienced mystery readers\n\nWould you like more details about either of these books?"

/-- `get_few_shot_examples`: the fixed pair of example exchanges. -/
def get_few_shot_examples : List Message :=
  [.dict [("role", "user"), ("parts", "Can you recommend a good mystery book?")],
   .dict [("role", "model"), ("parts", few_shot_answer)]]

/-- Build a role-tagged dict turn (history entries are passed to the API
as `{"role": …, "parts": …}` dicts). -/
def mkTurn (role parts : String) : Message :=
  .dict [("role", role), ("parts", parts)]

/-- The fresh-chat seed built by `gemini_api_query` when no prior history
exists: the persona prompt with the classified topic focus, the model
acknowledgment, then the two few-shot example exchanges. -/
def initial_seed (user_input : String) : List Message :=
  let topic := classify_topic user_input
  let system_prompt := create_system_instructions ++
    "\nFocus on " ++ topic ++ " aspects in your response."
  [mkTurn "user" system_prompt, mkTurn "model" acknowledgment] ++
    get_few_shot_examples

/-- The opaque remote model boundary: given the chat's seeded or resumed
history and the new user message, either return the reply text or raise
(network, auth, quota, malformed-response errors — any exception the
`try` block can see, carried as its `str(e)` description). -/
structure Remote where
  call : List Message → String → Except String String

/-- The history the chat is started with: Python's `if not chat_history`
is true both for `None` and for an empty list, so both seed a fresh chat;
a non-empty history is resumed verbatim. -/
def historyToUse (user_input : String) : Option (List Message) → List Message
  | none => initial_seed user_input
  | some [] => initial_seed user_input
  | some history => history

/-- The apology string built on failure, embedding `str(e)`. -/
def apologyFor (e : String) : String :=
  "I apologize, but I encountered an error: " ++ e ++ ". Please try again."

/-- `gemini_api_query user_input chat_history` against the remote oracle:
start a chat from the seed (fresh session) or the given history, send the
user message, and return the reply together with the chat's full updated
history (history + new user turn + new model reply, the chat API's
contract).  On any raised error, return the apology string embedding the
error description together with the *original* `chat_history` argument. -/
def gemini_api_query (remote : Remote) (user_input : String)
    (chat_history : Option (List Message)) :
    String × Option (List Message) :=
  let hist := historyToUse user_input chat_history
  match remote.call hist user_input with
  | .ok replyText =>
      (replyText,
       some (hist ++ [mkTurn "user" user_input, mkTurn "model" replyText]))
  | .error e => (apologyFor e, chat_history)

/-- The role an exchange carries under the spec's reading of the two
tolerated shapes: a dict's `role` field, or the role inferred for an
opaque object (`model` when a `role` attribute is present, else `user`). -/
def msgRole : Message → String
  | .dict entries => (dictGet "role" entries).getD ""
  | .content hasRoleAttr _ => if hasRoleAttr then "model" else "user"

/-- The content an exchange carries: a dict's `parts` field, or the text
representation of an opaque object. -/
def msgContent : Message → String
  | .dict entries => (dictGet "parts" entries).getD ""
  | .content _ text => text

/-- The two tolerated input shapes: a plain dict carrying both `role` and
`parts`, or any opaque (non-dict) object. -/
def Tolerated : Message → Prop
  | .dict entries => (dictGet "role" entries).isSome ∧ (dictGet "parts" entries).isSome
  | .content _ _ => True

instance : DecidablePred Tolerated := by
  intro m
  cases m with
  | dict entries => exact inferInstanceAs (Decidable (_ ∧ _))
  | content h t => exact inferInstanceAs (Decidable True)

/-- The canonical dict shape: a plain dict carrying both `role` and
`parts` (the shape `summarize_conversation` requires of every entry). -/
def DictShaped : Message → Prop
  | .dict entries => (dictGet "role" entries).isSome ∧ (dictGet "parts" entries).isSome
  | .content _ _ => False

instance : DecidablePred DictShaped := by
  intro m
  cases m with
  | dict entries => exact inferInstanceAs (Decidable (_ ∧ _))
  | content h t => exact inferInstanceAs (Decidable False)

/-! ## Supporting lemmas -/

theorem normalizeMessage_tolerated {m : Message} (h : Tolerated m) :
    normalizeMessage m = .ok ⟨msgRole m, msgContent m⟩ := by
  cases m with
  | dict entries =>
      obtain ⟨hr, hp⟩ := h
      obtain ⟨r, hr⟩ := Option.isSome_iff_exists.mp hr
      obtain ⟨p, hp⟩ := Option.isSome_iff_exists.mp hp
      simp [normalizeMessage, msgRole, msgContent, hr, hp]
  | content hasRoleAttr text => rfl

theorem normalizeHistory_tolerated {h : List Message}
    (ht : ∀ m ∈ h, Tolerated m) :
    normalizeHistory h = .ok (h.map fun m => ⟨msgRole m, msgContent m⟩) := by
  induction h with
  | nil => rfl
  | cons m rest ih =>
      have hm := normalizeMessage_tolerated (ht m (List.mem_cons_self m rest))
      have hr := ih fun x hx => ht x (List.mem_cons_of_mem m hx)
      simp [normalizeHistory, hm, hr]

theorem lookupSession_setSession_self (sid : String) (rec : TranscriptRecord)
    (s : Store) : lookupSession sid (setSession sid rec s) = some rec := by
  induction s with
  | nil => simp [setSession, lookupSession]
  | cons kv rest ih =>
      obtain ⟨k, v⟩ := kv
      by_cases hk : k = sid
      · simp [setSession, lookupSession, hk]
      · simp [setSession, lookupSession, hk, ih]

theorem lookupSession_setSession_ne {sid sid' : String} (hne : sid' ≠ sid)
    (rec : TranscriptRecord) (s : Store) :
    lookupSession sid' (setSession sid rec s) = lookupSession sid' s := by
  have hne' : ¬ (sid = sid') := fun h => hne h.symm
  induction s with
  | nil => simp [setSession, lookupSession, hne']
  | cons kv rest ih =>
      obtain ⟨k, v⟩ := kv
      by_cases hk : k = sid
      · subst hk
        simp [setSession, lookupSession, hne']
      · simp [setSession, lookupSession, hk, ih]

theorem countSession_setSession (sid : String) (rec : TranscriptRecord)
    (s : Store) :
    countSession sid (setSession sid rec s) = max 1 (countSession sid s) := by
  induction s with
  | nil => simp [countSession, setSession]
  | cons kv rest ih =>
      obtain ⟨k, v⟩ := kv
      by_cases hk : k = sid
      · subst hk
        simp [countSession, setSession, List.filter_cons]
      · simp [countSession, setSession, List.filter_cons, hk] at ih ⊢
        omega

theorem countSession_le_one_of_nodup {s : Store}
    (h : (s.map Prod.fst).Nodup) (sid : String) : countSession sid s ≤ 1 := by
  induction s with
  | nil => simp [countSession]
  | cons kv rest ih =>
      obtain ⟨k, v⟩ := kv
      rw [List.map_cons, List.nodup_cons] at h
      obtain ⟨hk, hrest⟩ := h
      by_cases hks : k = sid
      · subst hks
        have hzero : countSession k rest = 0 := by
          simp only [countSession, List.length_eq_zero, List.filter_eq_nil_iff,
            decide_eq_true_eq]
          intro p hp hpk
          exact hk (List.mem_map.mpr ⟨p, hp, hpk⟩)
        have hcons : countSession k ((k, v) :: rest) = countSession k rest + 1 := by
          simp [countSession, List.filter_cons]
        omega
      · simp only [countSession, List.filter_cons] at ih ⊢
        simp [hks, ih hrest]

theorem normalizeHistory_ok_structure {h : List Message} {l : List SavedMessage}
    (hok : normalizeHistory h = .ok l) :
    l.length = h.length ∧
    ∀ i (hi : i < h.length) (hi' : i < l.length),
      normalizeMessage (h.get ⟨i, hi⟩) = .ok (l.get ⟨i, hi'⟩) := by
  induction h generalizing l with
  | nil =>
      cases hok
      exact ⟨rfl, fun i hi => absurd hi (Nat.not_lt_zero i)⟩
  | cons m rest ih =>
      cases hm : normalizeMessage m with
      | error e => simp [normalizeHistory, hm] at hok
      | ok s =>
          cases hr : normalizeHistory rest with
          | error e => simp [normalizeHistory, hm, hr] at hok
          | ok ss =>
              simp only [normalizeHistory, hm, hr] at hok
              cases hok
              obtain ⟨hlen, hpt⟩ := ih hr
              refine ⟨by simp [hlen], ?_⟩
              intro i hi hi'
              cases i with
              | zero => simpa using hm
              | succ j =>
                  simpa using hpt j (by simpa using hi) (by simpa using hi')

/-- Inversion of a successful `save_conversation`: the file afterwards
holds the old mapping with the session bound to the normalized history
and the given timestamp. -/
theorem save_conversation_ok_inv {fs fs' : FileState}
    {session_id now : String} {history : List Message}
    (hs : save_conversation session_id history now fs = .ok fs') :
    ∃ l, normalizeHistory history = .ok l ∧
      fs' = .valid (setSession session_id ⟨now, l⟩
        (load_conversation_history fs)) := by
  cases hn : normalizeHistory history with
  | error e => simp [save_conversation, hn] at hs
  | ok l =>
      simp only [save_conversation, hn, Except.ok.injEq] at hs
      exact ⟨l, rfl, hs.symm⟩

/-! ## C4 — `load_conversation_history` fallback behaviour -/

/-- C4: `load_conversation_history` never raises (it is a total function of
the file state), and both on a missing transcript file and on a file
holding invalid JSON it returns the empty mapping. -/
theorem load_conversation_history_fallback :
    load_conversation_history FileState.missing = [] ∧
    load_conversation_history FileState.invalid = [] :=
  ⟨rfl, rfl⟩

/-! ## C2 — save followed by load round-trips role and content -/

/-- C2: for a history whose exchanges are each in one of the two tolerated
shapes (a plain dict carrying `role` and `parts`, or an opaque
role-bearing object coerced to its text with role inferred from the
presence of a role attribute, defaulting to `user`), `save_conversation`
succeeds and a subsequent `load_conversation_history` returns, under the
session id, exactly one record per exchange carrying that exchange's role
and content. -/
theorem save_load_roundtrip
    (fs : FileState) (session_id now : String) (history : List Message)
    (ht : ∀ m ∈ history, Tolerated m) :
    ∃ fs', save_conversation session_id history now fs = .ok fs' ∧
      lookupSession session_id (load_conversation_history fs')
        = some ⟨now, history.map fun m => ⟨msgRole m, msgContent m⟩⟩ := by
  refine ⟨.valid (setSession session_id
      ⟨now, history.map fun m => ⟨msgRole m, msgContent m⟩⟩
      (load_conversation_history fs)), ?_, ?_⟩
  · simp [save_conversation, normalizeHistory_tolerated ht]
  · simp [load_conversation_history, lookupSession_setSession_self]

/-- Witness for C2 at a concrete history exercising both tolerated
shapes, over a previously missing file. -/
theorem save_load_roundtrip_witness :
    ∃ fs',
      save_conversation "20240101_120000"
        [Message.dict [("role", "user"), ("parts", "What should I read?")],
         Message.content true "genai content: reply text",
         Message.content false "stray value"]
        "2024-01-01T12:00:05" FileState.missing = .ok fs' ∧
      lookupSession "20240101_120000" (load_conversation_history fs')
        = some ⟨"2024-01-01T12:00:05",
            [⟨"user", "What should I read?"⟩,
             ⟨"model", "genai content: reply text"⟩,
             ⟨"user", "stray value"⟩]⟩ :=
  save_load_roundtrip FileState.missing "20240101_120000"
    "2024-01-01T12:00:05"
    [Message.dict [("role", "user"), ("parts", "What should I read?")],
     Message.content true "genai content: reply text",
     Message.content false "stray value"]
    (by decide)

/-! ## C8 — save's tolerance of malformed exchange shapes -/

/-- C8 counterexample: the claim that `save_conversation` never raises on
an exchange whose shape falls outside the canonical `{role, parts}` form
is false: a dict-shaped exchange lacking the `role` key makes save raise
`KeyError` (so the save is rejected, not normalized). -/
theorem save_conversation_malformed_dict_raises :
    save_conversation "session" [Message.dict [("parts", "hi")]]
      "2024-01-01T00:00:00" FileState.missing = .error "KeyError: role" := by
  rfl

/-- C8 amended: `save_conversation` tolerates via best-effort
normalization every exchange that is not a dict — an arbitrary opaque
object never makes save raise — and more generally never raises as long
as each dict-shaped exchange carries both `role` and `parts`; only a
dict-shaped exchange lacking one of those keys raises `KeyError`. -/
theorem save_conversation_tolerates_opaque
    (fs : FileState) (session_id now : String) (history : List Message)
    (ht : ∀ m ∈ history, Tolerated m) :
    ∃ fs', save_conversation session_id history now fs = .ok fs' :=
  ⟨.valid (setSession session_id
      ⟨now, history.map fun m => ⟨msgRole m, msgContent m⟩⟩
      (load_conversation_history fs)),
   by simp [save_conversation, normalizeHistory_tolerated ht]⟩

/-- Witness for the amended C8 at a history made only of opaque non-dict
objects, over a corrupted file. -/
theorem save_conversation_tolerates_opaque_witness :
    ∃ fs', save_conversation "s"
      [Message.content true "role: model parts: ok",
       Message.content false "un-roled garbage object"]
      "t" FileState.invalid = .ok fs' :=
  save_conversation_tolerates_opaque FileState.invalid "s" "t"
    [Message.content true "role: model parts: ok",
     Message.content false "un-roled garbage object"]
    (by decide)

/-! ## C9 — normalization preserves count and order of exchanges -/

/-- C9: whenever `save_conversation` succeeds, the history written under
the session id has exactly one `{role, parts}` record per input exchange,
in the same order: its length equals the input length and its `i`-th
record is the normalization of the `i`-th input exchange. -/
theorem save_normalization_structure
    (fs fs' : FileState) (session_id now : String) (history : List Message)
    (hs : save_conversation session_id history now fs = .ok fs') :
    ∃ rec, lookupSession session_id (load_conversation_history fs') = some rec ∧
      rec.history.length = history.length ∧
      ∀ i (hi : i < history.length) (hi' : i < rec.history.length),
        normalizeMessage (history.get ⟨i, hi⟩) = .ok (rec.history.get ⟨i, hi'⟩) := by
  obtain ⟨l, hn, rfl⟩ := save_conversation_ok_inv hs
  obtain ⟨hlen, hpt⟩ := normalizeHistory_ok_structure hn
  exact ⟨⟨now, l⟩, by simp [load_conversation_history, lookupSession_setSession_self],
    hlen, hpt⟩

/-- Witness for C9 at a concrete two-exchange history. -/
theorem save_normalization_structure_witness :
    ∃ rec,
      lookupSession "s" (load_conversation_history
        (FileState.valid (setSession "s"
          ⟨"t", [⟨"user", "q1"⟩, ⟨"model", "a1"⟩]⟩ []))) = some rec ∧
      rec.history.length =
        ([Message.dict [("role", "user"), ("parts", "q1")],
          Message.content true "a1"] : List Message).length ∧
      ∀ i (hi : i < ([Message.dict [("role", "user"), ("parts", "q1")],
          Message.content true "a1"] : List Message).length)
        (hi' : i < rec.history.length),
        normalizeMessage (([Message.dict [("role", "user"), ("parts", "q1")],
          Message.content true "a1"] : List Message).get ⟨i, hi⟩)
          = .ok (rec.history.get ⟨i, hi'⟩) :=
  save_normalization_structure
    (FileState.valid [])
    (FileState.valid (setSession "s"
      ⟨"t", [⟨"user", "q1"⟩, ⟨"model", "a1"⟩]⟩ []))
    "s" "t"
    [Message.dict [("role", "user"), ("parts", "q1")],
     Message.content true "a1"]
    rfl

/-! ## C5 — save touches only its own session's entry -/

/-- C5: saving a session touches only that session's binding: every other
session id keeps its previous record through one save and through two,
and saving twice in a row for the same session leaves exactly one binding
for that session id, carrying the later timestamp and the later history.
(The no-duplicate-keys hypothesis states that the prior store is a
mapping, which every Python dict is.) -/
theorem save_conversation_frame
    (fs fs1 fs2 : FileState) (sid other t1 t2 : String)
    (h1 h2 : List Message)
    (hnodup : ((load_conversation_history fs).map Prod.fst).Nodup)
    (hs1 : save_conversation sid h1 t1 fs = .ok fs1)
    (hs2 : save_conversation sid h2 t2 fs1 = .ok fs2)
    (hother : other ≠ sid) :
    lookupSession other (load_conversation_history fs1)
      = lookupSession other (load_conversation_history fs) ∧
    lookupSession other (load_conversation_history fs2)
      = lookupSession other (load_conversation_history fs) ∧
    countSession sid (load_conversation_history fs2) = 1 ∧
    ∃ l2, normalizeHistory h2 = .ok l2 ∧
      lookupSession sid (load_conversation_history fs2) = some ⟨t2, l2⟩ := by
  obtain ⟨l1, hn1, rfl⟩ := save_conversation_ok_inv hs1
  obtain ⟨l2, hn2, rfl⟩ := save_conversation_ok_inv hs2
  simp only [load_conversation_history]
  refine ⟨lookupSession_setSession_ne hother _ _,
    by rw [lookupSession_setSession_ne hother, lookupSession_setSession_ne hother],
    ?_, l2, hn2, lookupSession_setSession_self _ _ _⟩
  have hle := countSession_le_one_of_nodup hnodup sid
  simp only [load_conversation_history] at hle
  rw [countSession_setSession, countSession_setSession]
  omega

/-- Witness for C5: a store holding another session, saved into twice. -/
theorem save_conversation_frame_witness :
    lookupSession "other" (load_conversation_history
        (FileState.valid [("other", ⟨"t0", []⟩), ("s", ⟨"t1", []⟩)]))
      = lookupSession "other" (load_conversation_history
        (FileState.valid [("other", ⟨"t0", []⟩)])) ∧
    lookupSession "other" (load_conversation_history
        (FileState.valid [("other", ⟨"t0", []⟩), ("s", ⟨"t2", [⟨"user", "q"⟩]⟩)]))
      = lookupSession "other" (load_conversation_history
        (FileState.valid [("other", ⟨"t0", []⟩)])) ∧
    countSession "s" (load_conversation_history
        (FileState.valid [("other", ⟨"t0", []⟩), ("s", ⟨"t2", [⟨"user", "q"⟩]⟩)])) = 1 ∧
    ∃ l2, normalizeHistory [Message.dict [("role", "user"), ("parts", "q")]] = .ok l2 ∧
      lookupSession "s" (load_conversation_history
        (FileState.valid [("other", ⟨"t0", []⟩), ("s", ⟨"t2", [⟨"user", "q"⟩]⟩)]))
        = some ⟨"t2", l2⟩ :=
  save_conversation_frame
    (FileState.valid [("other", ⟨"t0", []⟩)])
    (FileState.valid [("other", ⟨"t0", []⟩), ("s", ⟨"t1", []⟩)])
    (FileState.valid [("other", ⟨"t0", []⟩), ("s", ⟨"t2", [⟨"user", "q"⟩]⟩)])
    "s" "other" "t1" "t2" []
    [Message.dict [("role", "user"), ("parts", "q")]]
    (by decide) rfl rfl (by decide)

/-! ## C1 — failed remote call leaves the session untouched -/

/-- C1: whenever the remote call raises, `gemini_api_query` returns the
input session unmodified (the second component is the very `chat_history`
argument, byte for byte — no user turn or reply is appended) paired with
an apology reply that contains the raised error's description as a literal
substring. -/
theorem gemini_api_query_error_preserves_history
    (remote : Remote) (user_input e : String)
    (chat_history : Option (List Message))
    (herr : remote.call (historyToUse user_input chat_history) user_input
      = .error e) :
    gemini_api_query remote user_input chat_history
      = (apologyFor e, chat_history) ∧
    ∃ pre post,
      (gemini_api_query remote user_input chat_history).1 = pre ++ e ++ post := by
  refine ⟨by simp [gemini_api_query, herr],
    "I apologize, but I encountered an error: ", ". Please try again.", ?_⟩
  simp [gemini_api_query, herr, apologyFor]

/-- Witness for C1 at a concrete failing remote, input and session. -/
theorem gemini_api_query_error_preserves_history_witness :
    gemini_api_query ⟨fun _ _ => .error "429 quota exceeded"⟩ "Hi"
        (some [mkTurn "user" "old question"])
      = (apologyFor "429 quota exceeded", some [mkTurn "user" "old question"]) ∧
    ∃ pre post,
      (gemini_api_query ⟨fun _ _ => .error "429 quota exceeded"⟩ "Hi"
        (some [mkTurn "user" "old question"])).1
        = pre ++ "429 quota exceeded" ++ post :=
  gemini_api_query_error_preserves_history
    ⟨fun _ _ => .error "429 quota exceeded"⟩ "Hi" "429 quota exceeded"
    (some [mkTurn "user" "old question"]) rfl

/-! ## C10 — empty history is treated like an absent one -/

/-- C10: `gemini_api_query` treats an empty exchange log exactly like an
absent one: the chat is started from the fresh topic-classified seed in
both cases, and on a successful remote call the two invocations return
identical results. -/
theorem gemini_api_query_empty_history_seeds_fresh
    (remote : Remote) (user_input : String) :
    historyToUse user_input (some []) = initial_seed user_input ∧
    historyToUse user_input none = initial_seed user_input ∧
    ∀ reply, remote.call (initial_seed user_input) user_input = .ok reply →
      gemini_api_query remote user_input (some [])
        = gemini_api_query remote user_input none := by
  refine ⟨rfl, rfl, fun reply hok => ?_⟩
  simp [gemini_api_query, historyToUse, hok]

/-- Witness for C10 at a concrete succeeding remote and input. -/
theorem gemini_api_query_empty_history_seeds_fresh_witness :
    gemini_api_query ⟨fun _ _ => .ok "Hello!"⟩ "Hi" (some [])
      = gemini_api_query ⟨fun _ _ => .ok "Hello!"⟩ "Hi" none :=
  (gemini_api_query_empty_history_seeds_fresh
    ⟨fun _ _ => .ok "Hello!"⟩ "Hi").2.2 "Hello!" rfl

/-! ## C6 — first question seeds the chat and grows it by two -/

/-- C6: on the first-ever question of a session (no prior exchange log),
the chat is seeded with the persona prompt carrying the classified topic
focus, the acknowledgment exchange and the two few-shot examples (seed
length 4); after a successful remote call the returned history is the
seed followed by the new user turn and the new model reply, of length
seed length + 2. -/
theorem gemini_api_query_first_question
    (remote : Remote) (user_input reply : String)
    (hok : remote.call (initial_seed user_input) user_input = .ok reply) :
    initial_seed user_input =
      [mkTurn "user" (create_system_instructions ++ "\nFocus on "
          ++ classify_topic user_input ++ " aspects in your response."),
       mkTurn "model" acknowledgment] ++ get_few_shot_examples ∧
    (initial_seed user_input).length = 4 ∧
    gemini_api_query remote user_input none =
      (reply, some (initial_seed user_input
        ++ [mkTurn "user" user_input, mkTurn "model" reply])) ∧
    (initial_seed user_input
        ++ [mkTurn "user" user_input, mkTurn "model" reply]).length
      = (initial_seed user_input).length + 2 := by
  refine ⟨rfl, rfl, by simp [gemini_api_query, historyToUse, hok], by simp⟩

/-- Witness for C6 at the spec's concrete scenario: first-ever input
"Can you recommend a mystery?", classified as `recommendations`, with a
succeeding remote. -/
theorem gemini_api_query_first_question_witness :
    classify_topic "Can you recommend a mystery?" = "recommendations" ∧
    gemini_api_query ⟨fun _ _ => .ok "Sure"⟩ "Can you recommend a mystery?" none
      = ("Sure", some (initial_seed "Can you recommend a mystery?"
          ++ [mkTurn "user" "Can you recommend a mystery?",
              mkTurn "model" "Sure"])) ∧
    (initial_seed "Can you recommend a mystery?").length = 4 :=
  ⟨by decide,
   (gemini_api_query_first_question ⟨fun _ _ => .ok "Sure"⟩
      "Can you recommend a mystery?" "Sure" rfl).2.2.1,
   (gemini_api_query_first_question ⟨fun _ _ => .ok "Sure"⟩
      "Can you recommend a mystery?" "Sure" rfl).2.1⟩

/-! ## C3 — the topic classifier -/

theorem find?_eq_of_first {α : Type} (p : α → Bool) (l : List α) (i : Nat)
    (hi : i < l.length) (hp : p (l.get ⟨i, hi⟩) = true)
    (hmin : ∀ j (hj : j < i), p (l.get ⟨j, Nat.lt_trans hj hi⟩) = false) :
    l.find? p = some (l.get ⟨i, hi⟩) := by
  induction l generalizing i with
  | nil => exact absurd hi (Nat.not_lt_zero i)
  | cons a rest ih =>
      cases i with
      | zero => exact List.find?_cons_of_pos rest hp
      | succ j =>
          have ha : p a = false := hmin 0 (Nat.succ_pos j)
          rw [List.find?_cons_of_neg rest (by simp [ha])]
          exact ih j (by simpa using hi) (by simpa using hp)
            fun k hk => by simpa using hmin (k + 1) (Nat.succ_lt_succ hk)

/-- C3: `classify_topic` returns the topic of the first keyword (in the
declaration order of the keyword table) occurring as a substring of the
lowercased input; an input containing both `recommend` and `author`
yields `recommendations`; an input containing no keyword yields
`general`; and the result always lies in the closed six-label set. -/
theorem classify_topic_spec (s : String) :
    (∀ (i : Nat) (hi : i < keyword_table.length),
        charsContain (keyword_table.get ⟨i, hi⟩).1.toList (lowerChars s) = true →
        (∀ (j : Nat) (hj : j < i),
            charsContain (keyword_table.get ⟨j, Nat.lt_trans hj hi⟩).1.toList
              (lowerChars s) = false) →
        classify_topic s = (keyword_table.get ⟨i, hi⟩).2) ∧
    (charsContain "recommend".toList (lowerChars s) = true →
        charsContain "author".toList (lowerChars s) = true →
        classify_topic s = "recommendations") ∧
    ((∀ kt ∈ keyword_table, charsContain kt.1.toList (lowerChars s) = false) →
        classify_topic s = "general") ∧
    classify_topic s ∈ ["recommendations", "author_info", "genre_exploration",
      "comprehension", "resources", "general"] := by
  refine ⟨?_, ?_, ?_, ?_⟩
  · intro i hi hp hmin
    have hfirst := find?_eq_of_first (keywordMatches (lowerChars s))
      keyword_table i hi hp hmin
    simp only [classify_topic, hfirst]
  · intro hrec _
    have hpos : keyword_table.find? (keywordMatches (lowerChars s))
        = some ("recommend", "recommendations") := by
      rw [keyword_table]
      exact List.find?_cons_of_pos _
        (show keywordMatches (lowerChars s) ("recommend", "recommendations")
            = true from hrec)
    simp only [classify_topic, hpos]
  · intro hnone
    have hf : keyword_table.find? (keywordMatches (lowerChars s)) = none :=
      List.find?_eq_none.mpr fun kt hkt => by
        rw [Bool.not_eq_true]
        exact hnone kt hkt
    simp only [classify_topic, hf]
  · cases hfind : keyword_table.find? (keywordMatches (lowerChars s)) with
    | none => simp [classify_topic, hfind]
    | some kt =>
        have hmem := List.mem_of_find?_eq_some hfind
        have heq : classify_topic s = kt.2 := by
          simp only [classify_topic, hfind]
        rw [heq]
        simp only [keyword_table, List.mem_cons, List.not_mem_nil, or_false] at hmem
        rcases hmem with rfl | rfl | rfl | rfl | rfl | rfl | rfl | rfl | rfl | rfl <;>
          simp

/-- Witness for C3: a concrete input containing both `recommend` and
`author` classifies as `recommendations`, and a keyword-free input
classifies as `general`. -/
theorem classify_topic_spec_witness :
    classify_topic "Please RECOMMEND an author" = "recommendations" ∧
    classify_topic "hello there" = "general" :=
  ⟨(classify_topic_spec "Please RECOMMEND an author").2.1 (by decide) (by decide),
   (classify_topic_spec "hello there").2.2.1 (by decide)⟩

/-! ## C7 — the conversation summary -/

theorem collectQuestions_dictShaped {history : List Message}
    (ht : ∀ m ∈ history, DictShaped m) :
    collectQuestions history = .ok (history.filterMap fun m =>
      if msgRole m = "user" then some (msgContent m) else none) := by
  induction history with
  | nil => rfl
  | cons m rest ih =>
      have hrest := ih fun x hx => ht x (List.mem_cons_of_mem m hx)
      have hm := ht m (List.mem_cons_self m rest)
      cases m with
      | content hasRoleAttr text => exact absurd hm (by simp [DictShaped])
      | dict entries =>
          obtain ⟨hr, hp⟩ := hm
          obtain ⟨r, hr⟩ := Option.isSome_iff_exists.mp hr
          obtain ⟨p, hp⟩ := Option.isSome_iff_exists.mp hp
          by_cases hu : r = "user"
          · subst hu
            simp [collectQuestions, extractQuestion, hr, hp, hrest,
              msgRole, msgContent, List.filterMap_cons]
          · simp [collectQuestions, extractQuestion, hr, hp, hrest,
              msgRole, msgContent, hu, List.filterMap_cons]

/-- C7 counterexample: the claim omits the trailing ellipsis.  On a
concrete dict-shaped log, `summarize_conversation` does *not* return
`"Discussion covered: "` followed by just the comma-joined later user
contents — the code appends `"..."` to the joined string. -/
theorem summarize_conversation_counterexample :
    summarize_conversation
        [Message.dict [("role", "user"), ("parts", "system prompt")],
         Message.dict [("role", "model"), ("parts", "ack")],
         Message.dict [("role", "user"), ("parts", "q2")]]
      ≠ .ok ("Discussion covered: " ++ String.intercalate ", " ["q2"]) := by
  intro h
  have heval : summarize_conversation
      [Message.dict [("role", "user"), ("parts", "system prompt")],
       Message.dict [("role", "model"), ("parts", "ack")],
       Message.dict [("role", "user"), ("parts", "q2")]]
      = .ok "Discussion covered: q2..." := by rfl
  rw [heval] at h
  have := Except.ok.inj h
  exact absurd this (by decide)

/-- C7 amended: for every non-empty exchange log of dict-shaped exchanges,
`summarize_conversation` returns `"Discussion covered: "` followed by the
comma-joined contents of the user-role exchanges excluding the very first
user-role exchange, truncated to at most the first three such contents,
followed by a trailing ellipsis `"..."`. -/
theorem summarize_conversation_spec (history : List Message)
    (_hne : history ≠ [])
    (ht : ∀ m ∈ history, DictShaped m) :
    summarize_conversation history =
      .ok ("Discussion covered: " ++
        String.intercalate ", "
          (((history.filterMap fun m =>
              if msgRole m = "user" then some (msgContent m) else none).drop 1).take 3)
        ++ "...") := by
  simp [summarize_conversation, collectQuestions_dictShaped ht]

/-- Witness for the amended C7 on a concrete five-exchange log: the
summary lists the second and third user questions after the synthetic
prompt, joined by a comma, with the trailing ellipsis. -/
theorem summarize_conversation_spec_witness :
    summarize_conversation
        [Message.dict [("role", "user"), ("parts", "system prompt")],
         Message.dict [("role", "model"), ("parts", "ack")],
         Message.dict [("role", "user"), ("parts", "q2")],
         Message.dict [("role", "model"), ("parts", "a2")],
         Message.dict [("role", "user"), ("parts", "q3")]]
      = .ok ("Discussion covered: " ++
          String.intercalate ", "
            ((([Message.dict [("role", "user"), ("parts", "system prompt")],
                Message.dict [("role", "model"), ("parts", "ack")],
                Message.dict [("role", "user"), ("parts", "q2")],
                Message.dict [("role", "model"), ("parts", "a2")],
                Message.dict [("role", "user"), ("parts", "q3")]].filterMap fun m =>
                if msgRole m = "user" then some (msgContent m) else none).drop 1).take 3)
          ++ "...") :=
  summarize_conversation_spec
    [Message.dict [("role", "user"), ("parts", "system prompt")],
     Message.dict [("role", "model"), ("parts", "ack")],
     Message.dict [("role", "user"), ("parts", "q2")],
     Message.dict [("role", "model"), ("parts", "a2")],
     Message.dict [("role", "user"), ("parts", "q3")]]
    (by decide) (by decide)

end BookGuide
